import Mathlib

/-!
Shallow embedding of the `sendfile` crate (`src/lib.rs`).

The crate wraps the native `sendfile` system call behind a pollable
operation.  The state is the `SendFile` struct: the owned `file`, the
owned `socket`, and the running byte count `written`.  Each platform
branch of `raw_send_file` performs exactly one native call; we model the
outcome of one native call as a platform-specific value (written-back
length plus optional errno class) and the adapter as a pure function
from the current state and that one outcome to the new state and the
`io::Result<usize>` it returns.  The poll driver is a loop over the
adapter; we model the sequence of native outcomes a run observes as a
trace (a list consumed left to right), so `pollLoop` recurses on the
trace and returns the final state, the poll outcome (`none` when the
trace ran out before the loop terminated), and the unconsumed suffix.
-/

namespace Sendfile

/-- Classification of a native error, mirroring `io::ErrorKind` as used by
the driver: `WouldBlock`, `Interrupted`, or any other kind (carrying a
code so that distinct fatal errors stay distinct). -/
inductive ErrorKind : Type
  | wouldBlock
  | interrupted
  | other : Nat → ErrorKind
  deriving DecidableEq, Repr

/-- The `SendFile` struct of the crate: owned file, owned socket, and the
number of bytes written so far. -/
structure SendFile (F S : Type) where
  file : F
  socket : S
  written : Nat
  deriving DecidableEq, Repr

/-- `send_file(file, socket)`: the constructor, initialising `written` to 0.
(The Rust function is `unsafe` only because of file-descriptor
preconditions; it has no behaviour beyond building the struct.) -/
def send_file {F S : Type} (file : F) (socket : S) : SendFile F S :=
  { file := file, socket := socket, written := 0 }

/-- `SendFile::into_inner(self) -> (F, S)`: returns the file and socket,
dropping the struct (and with it the `written` count).  Defined, like in
the crate, for arbitrary `F` and `S` with no `AsRawFd` bound. -/
def SendFile.into_inner {F S : Type} (sf : SendFile F S) : F × S :=
  (sf.file, sf.socket)

/-- Outcome of one native macOS `sendfile` call: `length` is the byte
count the kernel writes back into the value-result length parameter
(also on failure, notably on `EAGAIN`), and `err` is `some e` exactly
when the call returned `-1` with errno classified as `e`. -/
structure MacCall : Type where
  length : Nat
  err : Option ErrorKind
  deriving DecidableEq, Repr

/-- Outcome of one native Linux/Android `sendfile` call: either an error
classification (call returned `-1`), or the count `n` of bytes moved; on
success the kernel also advances the offset parameter by exactly `n`,
so the written-back offset is the old offset plus `n`. -/
abbrev LinCall : Type := Except ErrorKind Nat

/-- Outcome of one native FreeBSD `sendfile` call: `bytes_sent` is the
count written to the separate out-parameter (meaningful also when the
call fails), and `err` is `some e` exactly when the call returned `-1`. -/
structure BsdCall : Type where
  bytes_sent : Nat
  err : Option ErrorKind
  deriving DecidableEq, Repr

/-- macOS `SendFile::raw_send_file`: one native call with a value-result
length parameter.  The written-back `length` is added to `written`
unconditionally, and only afterwards is the result code inspected:
`Err` on `-1`, else `Ok(length)`. -/
def rawSendFileMacos {F S : Type} (sf : SendFile F S) (c : MacCall) :
    SendFile F S × Except ErrorKind Nat :=
  let sf' := { sf with written := sf.written + c.length }
  match c.err with
  | some e => (sf', Except.error e)
  | none => (sf', Except.ok c.length)

/-- The per-call byte ceiling the Linux/Android branch requests
(`count = 0x7ffff000`), the maximum the Linux kernel will write in a
single `sendfile` call. -/
def linuxCount : Nat := 0x7ffff000

/-- Linux/Android `SendFile::raw_send_file`: one native call passing
`&mut offset` initialised to `written` and `count = 0x7ffff000`.  On
`-1` the state is untouched and the error returned; on success
`written` is set to the written-back offset, i.e. advanced by the `n`
bytes moved, and `Ok(n)` is returned. -/
def rawSendFileLinux {F S : Type} (sf : SendFile F S) (c : LinCall) :
    SendFile F S × Except ErrorKind Nat :=
  match c with
  | Except.error e => (sf, Except.error e)
  | Except.ok n => ({ sf with written := sf.written + n }, Except.ok n)

/-- FreeBSD `SendFile::raw_send_file`: one native call with a separate
`&mut bytes_sent` out-parameter.  Its written-back value is added to
`written` unconditionally before the result code is inspected. -/
def rawSendFileFreebsd {F S : Type} (sf : SendFile F S) (c : BsdCall) :
    SendFile F S × Except ErrorKind Nat :=
  let sf' := { sf with written := sf.written + c.bytes_sent }
  match c.err with
  | some e => (sf', Except.error e)
  | none => (sf', Except.ok c.bytes_sent)

/-- Outcome of one `Future::poll` invocation: `Poll::Pending`,
`Poll::Ready(Ok(()))` (note: the success payload in the crate is the
unit value, not a byte count), or `Poll::Ready(Err(e))`. -/
inductive PollOut : Type
  | pending
  | readyOk
  | readyErr : ErrorKind → PollOut
  deriving DecidableEq, Repr

/-- The `Future::poll` loop of the crate, generic in the platform adapter
`step` (each platform's `raw_send_file` instantiates it).  One iteration
consumes one native outcome from the trace and matches the adapter's
result exactly as the Rust `match`: `Ok(0)` breaks `Ready(Ok(()))`,
`Ok(_)` continues, `WouldBlock` breaks `Pending`, `Interrupted`
continues, any other error breaks `Ready(Err(err))`.  Returns the final
state, `some` outcome (or `none` if the trace was exhausted first), and
the unconsumed trace suffix. -/
def pollLoop {F S C : Type}
    (step : SendFile F S → C → SendFile F S × Except ErrorKind Nat) :
    SendFile F S → List C → SendFile F S × Option PollOut × List C
  | sf, [] => (sf, none, [])
  | sf, c :: rest =>
    match step sf c with
    | (sf', Except.ok 0) => (sf', some PollOut.readyOk, rest)
    | (sf', Except.ok (_ + 1)) => pollLoop step sf' rest
    | (sf', Except.error ErrorKind.wouldBlock) => (sf', some PollOut.pending, rest)
    | (sf', Except.error ErrorKind.interrupted) => pollLoop step sf' rest
    | (sf', Except.error e) => (sf', some (PollOut.readyErr e), rest)

/-- `poll` on macOS: the driver loop over the macOS adapter. -/
def pollMacos {F S : Type} (sf : SendFile F S) (t : List MacCall) :
    SendFile F S × Option PollOut × List MacCall :=
  pollLoop rawSendFileMacos sf t

/-- `poll` on Linux/Android: the driver loop over the Linux adapter. -/
def pollLinux {F S : Type} (sf : SendFile F S) (t : List LinCall) :
    SendFile F S × Option PollOut × List LinCall :=
  pollLoop rawSendFileLinux sf t

/-- `poll` on FreeBSD: the driver loop over the FreeBSD adapter. -/
def pollFreebsd {F S : Type} (sf : SendFile F S) (t : List BsdCall) :
    SendFile F S × Option PollOut × List BsdCall :=
  pollLoop rawSendFileFreebsd sf t

/-- A sequence of successive macOS poll invocations: each poll consumes
its own trace of native outcomes and hands the resulting state to the
next poll.  Returns the final state and the list of poll outcomes. -/
def pollSeq {F S : Type} :
    SendFile F S → List (List MacCall) → SendFile F S × List (Option PollOut)
  | sf, [] => (sf, [])
  | sf, t :: ts =>
    let r := pollMacos sf t
    let q := pollSeq r.1 ts
    (q.1, r.2.1 :: q.2)

/-- Number of adapter invocations (native calls) a poll performs on a
given trace: one per loop iteration. -/
def pollLoopCount {F S C : Type}
    (step : SendFile F S → C → SendFile F S × Except ErrorKind Nat) :
    SendFile F S → List C → Nat
  | _, [] => 0
  | sf, c :: rest =>
    match step sf c with
    | (_, Except.ok 0) => 1
    | (sf', Except.ok (_ + 1)) => pollLoopCount step sf' rest + 1
    | (_, Except.error ErrorKind.wouldBlock) => 1
    | (sf', Except.error ErrorKind.interrupted) => pollLoopCount step sf' rest + 1
    | (_, Except.error _) => 1

/-- Number of successful `Advanced(n)` outcomes with `n > 0` in a Linux
native-call trace. -/
def advCount : List LinCall → Nat
  | [] => 0
  | Except.ok (_ + 1) :: rest => advCount rest + 1
  | _ :: rest => advCount rest

/-! ### Helper lemmas about the driver loop -/

theorem pollLoop_ok_zero {F S C : Type}
    (step : SendFile F S → C → SendFile F S × Except ErrorKind Nat)
    (sf sf' : SendFile F S) (c : C) (rest : List C)
    (h : step sf c = (sf', Except.ok 0)) :
    pollLoop step sf (c :: rest) = (sf', some PollOut.readyOk, rest) := by
  simp [pollLoop, h]

theorem pollLoop_ok_pos {F S C : Type}
    (step : SendFile F S → C → SendFile F S × Except ErrorKind Nat)
    (sf sf' : SendFile F S) (c : C) (rest : List C) (n : Nat)
    (h : step sf c = (sf', Except.ok (n + 1))) :
    pollLoop step sf (c :: rest) = pollLoop step sf' rest := by
  simp [pollLoop, h]

theorem pollLoop_wouldBlock {F S C : Type}
    (step : SendFile F S → C → SendFile F S × Except ErrorKind Nat)
    (sf sf' : SendFile F S) (c : C) (rest : List C)
    (h : step sf c = (sf', Except.error ErrorKind.wouldBlock)) :
    pollLoop step sf (c :: rest) = (sf', some PollOut.pending, rest) := by
  simp [pollLoop, h]

theorem pollLoop_interrupted {F S C : Type}
    (step : SendFile F S → C → SendFile F S × Except ErrorKind Nat)
    (sf sf' : SendFile F S) (c : C) (rest : List C)
    (h : step sf c = (sf', Except.error ErrorKind.interrupted)) :
    pollLoop step sf (c :: rest) = pollLoop step sf' rest := by
  simp [pollLoop, h]

theorem pollLoop_fatal {F S C : Type}
    (step : SendFile F S → C → SendFile F S × Except ErrorKind Nat)
    (sf sf' : SendFile F S) (c : C) (rest : List C) (k : Nat)
    (h : step sf c = (sf', Except.error (ErrorKind.other k))) :
    pollLoop step sf (c :: rest) =
      (sf', some (PollOut.readyErr (ErrorKind.other k)), rest) := by
  simp [pollLoop, h]

/-- If one adapter invocation never decreases `written`, neither does a
whole poll invocation (the loop only chains adapter invocations). -/
theorem pollLoop_written_mono {F S C : Type}
    (step : SendFile F S → C → SendFile F S × Except ErrorKind Nat)
    (hstep : ∀ (sf : SendFile F S) (c : C), sf.written ≤ ((step sf c).1).written) :
    ∀ (t : List C) (sf : SendFile F S),
      sf.written ≤ ((pollLoop step sf t).1).written := by
  intro t
  induction t with
  | nil => intro sf; simp [pollLoop]
  | cons c rest ih =>
    intro sf
    rcases h : step sf c with ⟨sf', r⟩
    have hw : sf.written ≤ sf'.written := by
      have h0 := hstep sf c
      rw [h] at h0
      exact h0
    cases r with
    | ok n =>
      cases n with
      | zero =>
        rw [pollLoop_ok_zero step sf sf' c rest h]
        exact hw
      | succ m =>
        rw [pollLoop_ok_pos step sf sf' c rest m h]
        exact le_trans hw (ih sf')
    | error e =>
      cases e with
      | wouldBlock =>
        rw [pollLoop_wouldBlock step sf sf' c rest h]
        exact hw
      | interrupted =>
        rw [pollLoop_interrupted step sf sf' c rest h]
        exact le_trans hw (ih sf')
      | other k =>
        rw [pollLoop_fatal step sf sf' c rest k h]
        exact hw

/-- Trace accounting: the unconsumed suffix plus one trace element per
adapter invocation makes up the whole trace, for every adapter and every
trace — each adapter invocation consumes exactly one native outcome. -/
theorem pollLoop_one_call_each {F S C : Type}
    (step : SendFile F S → C → SendFile F S × Except ErrorKind Nat) :
    ∀ (t : List C) (sf : SendFile F S),
      ((pollLoop step sf t).2.2).length + pollLoopCount step sf t = t.length := by
  intro t
  induction t with
  | nil => intro sf; simp [pollLoop, pollLoopCount]
  | cons c rest ih =>
    intro sf
    rcases h : step sf c with ⟨sf', r⟩
    cases r with
    | ok n =>
      cases n with
      | zero => simp [pollLoop, pollLoopCount, h]
      | succ m =>
        have h1 := ih sf'
        simp only [pollLoop, pollLoopCount, h, List.length_cons]
        omega
    | error e =>
      cases e with
      | wouldBlock => simp [pollLoop, pollLoopCount, h]
      | interrupted =>
        have h1 := ih sf'
        simp only [pollLoop, pollLoopCount, h, List.length_cons]
        omega
      | other k => simp [pollLoop, pollLoopCount, h]

/-- On Linux, when every successful native outcome in the trace respects
the requested per-call ceiling, a poll can advance `written` by at most
`linuxCount` per positive `Advanced` outcome in the trace. -/
theorem pollLinux_written_le {F S : Type} :
    ∀ (t : List LinCall) (sf : SendFile F S),
      (∀ m : Nat, Except.ok m ∈ t → m ≤ linuxCount) →
      ((pollLinux sf t).1).written ≤ sf.written + advCount t * linuxCount := by
  intro t
  induction t with
  | nil => intro sf _; simp [pollLinux, pollLoop, advCount]
  | cons c rest ih =>
    intro sf hcap
    have hcap' : ∀ m : Nat, Except.ok m ∈ rest → m ≤ linuxCount := by
      intro m hm
      exact hcap m (List.mem_cons_of_mem c hm)
    cases c with
    | ok n =>
      cases n with
      | zero =>
        have h : rawSendFileLinux sf (Except.ok 0) =
            ({ sf with written := sf.written + 0 }, Except.ok 0) := rfl
        rw [pollLinux, pollLoop_ok_zero rawSendFileLinux sf _ _ rest h]
        simp
      | succ m =>
        have h : rawSendFileLinux sf (Except.ok (m + 1)) =
            ({ sf with written := sf.written + (m + 1) }, Except.ok (m + 1)) := rfl
        rw [pollLinux, pollLoop_ok_pos rawSendFileLinux sf _ _ rest m h]
        have h1 := ih { sf with written := sf.written + (m + 1) } hcap'
        rw [pollLinux] at h1
        have hm : m + 1 ≤ linuxCount :=
          hcap (m + 1) (List.mem_cons_self _ _)
        have h2 : advCount (Except.ok (m + 1) :: rest) = advCount rest + 1 := by
          simp [advCount]
        rw [h2]
        have h3 : (advCount rest + 1) * linuxCount =
            advCount rest * linuxCount + linuxCount := by
          ring
        rw [h3]
        simp only [SendFile.mk.injEq] at h1
        omega
    | error e =>
      cases e with
      | wouldBlock =>
        have h : rawSendFileLinux sf (Except.error ErrorKind.wouldBlock) =
            (sf, Except.error ErrorKind.wouldBlock) := rfl
        rw [pollLinux, pollLoop_wouldBlock rawSendFileLinux sf sf _ rest h]
        exact Nat.le_add_right _ _
      | interrupted =>
        have h : rawSendFileLinux sf (Except.error ErrorKind.interrupted) =
            (sf, Except.error ErrorKind.interrupted) := rfl
        rw [pollLinux, pollLoop_interrupted rawSendFileLinux sf sf _ rest h]
        have h1 := ih sf hcap'
        rw [pollLinux] at h1
        have h2 : advCount (Except.error ErrorKind.interrupted :: rest) = advCount rest := by
          simp [advCount]
        rw [h2]
        exact h1
      | other k =>
        have h : rawSendFileLinux sf (Except.error (ErrorKind.other k)) =
            (sf, Except.error (ErrorKind.other k)) := rfl
        rw [pollLinux, pollLoop_fatal rawSendFileLinux sf sf _ rest k h]
        exact Nat.le_add_right _ _

/-- A destination that is never writable: every native call writes back
zero bytes and classifies as `WouldBlock`, so every poll in a sequence
returns `Pending` and the state never changes. -/
theorem pollSeq_never_writable {F S : Type} :
    ∀ (ts : List (List MacCall)) (sf : SendFile F S),
      (∀ t ∈ ts, t.head? = some (MacCall.mk 0 (some ErrorKind.wouldBlock))) →
      pollSeq sf ts = (sf, ts.map fun _ => some PollOut.pending) := by
  intro ts
  induction ts with
  | nil => intro sf _; simp [pollSeq]
  | cons t ts ih =>
    intro sf h
    have ht := h t (List.mem_cons_self t ts)
    have hts : ∀ u ∈ ts, u.head? = some (MacCall.mk 0 (some ErrorKind.wouldBlock)) := by
      intro u hu
      exact h u (List.mem_cons_of_mem t hu)
    cases t with
    | nil => simp at ht
    | cons c rest =>
      have hc : c = MacCall.mk 0 (some ErrorKind.wouldBlock) := by
        simpa using ht
      subst hc
      have hstep : rawSendFileMacos sf (MacCall.mk 0 (some ErrorKind.wouldBlock)) =
          (sf, Except.error ErrorKind.wouldBlock) := rfl
      have hpoll : pollMacos sf (MacCall.mk 0 (some ErrorKind.wouldBlock) :: rest) =
          (sf, some PollOut.pending, rest) := by
        rw [pollMacos]
        exact pollLoop_wouldBlock rawSendFileMacos sf sf _ rest hstep
      simp [pollSeq, hpoll, ih sf hts]

/-- One macOS adapter invocation never decreases `written`. -/
theorem rawSendFileMacos_mono {F S : Type} (sf : SendFile F S) (c : MacCall) :
    sf.written ≤ ((rawSendFileMacos sf c).1).written := by
  rcases c with ⟨L, e⟩
  cases e
  · exact Nat.le_add_right _ _
  · exact Nat.le_add_right _ _

/-- One Linux adapter invocation never decreases `written`. -/
theorem rawSendFileLinux_mono {F S : Type} (sf : SendFile F S) (c : LinCall) :
    sf.written ≤ ((rawSendFileLinux sf c).1).written := by
  cases c
  · exact le_refl _
  · exact Nat.le_add_right _ _

/-- One FreeBSD adapter invocation never decreases `written`. -/
theorem rawSendFileFreebsd_mono {F S : Type} (sf : SendFile F S) (c : BsdCall) :
    sf.written ≤ ((rawSendFileFreebsd sf c).1).written := by
  rcases c with ⟨B, e⟩
  cases e
  · exact Nat.le_add_right _ _
  · exact Nat.le_add_right _ _

/-- `written` never decreases across a whole sequence of macOS polls. -/
theorem pollSeq_written_mono {F S : Type} :
    ∀ (ts : List (List MacCall)) (sf : SendFile F S),
      sf.written ≤ ((pollSeq sf ts).1).written := by
  intro ts
  induction ts with
  | nil => intro sf; simp [pollSeq]
  | cons t ts ih =>
    intro sf
    have h1 : sf.written ≤ ((pollMacos sf t).1).written := by
      rw [pollMacos]
      exact pollLoop_written_mono rawSendFileMacos (fun u c => rawSendFileMacos_mono u c) t sf
    simp only [pollSeq]
    exact le_trans h1 (ih _)

/-! ### Claims -/

/-- C1 (counterexample): `poll` at successful completion does not carry
the total number of bytes transferred.  Two runs that transfer 5 bytes
and 0 bytes respectively return the very same poll outcome
(`Ready(Ok(()))`), so the poll result cannot report the differing
totals; those live only in the `written` field. -/
theorem C1_counterexample :
    (pollMacos (send_file (0 : Nat) (0 : Nat))
        [MacCall.mk 5 none, MacCall.mk 0 none]).2.1
      = (pollMacos (send_file (0 : Nat) (0 : Nat)) [MacCall.mk 0 none]).2.1
    ∧ ((pollMacos (send_file (0 : Nat) (0 : Nat))
        [MacCall.mk 5 none, MacCall.mk 0 none]).1).written = 5
    ∧ ((pollMacos (send_file (0 : Nat) (0 : Nat)) [MacCall.mk 0 none]).1).written = 0 := by
  decide

/-- C1 (amended): when the adapter reports zero bytes advanced, `poll`
returns `Ready(Ok(()))` — the success payload is the unit value, not a
byte count — leaving `written` unchanged, so the total stays available
through the `written()` accessor; in particular a 0-byte source (first
native call reports 0) yields `Ready(Ok(()))` on the very first poll
with `written() = 0`. -/
theorem C1_completion_unit {F S : Type} (f : F) (s : S) (sf : SendFile F S)
    (rest : List MacCall) :
    (∃ sf' : SendFile F S,
      pollMacos sf (MacCall.mk 0 none :: rest) = (sf', some PollOut.readyOk, rest)
      ∧ sf'.written = sf.written)
    ∧ pollMacos (send_file f s) [MacCall.mk 0 none]
        = (send_file f s, some PollOut.readyOk, [])
    ∧ (send_file f s).written = 0 := by
  refine ⟨⟨sf, ?_, rfl⟩, ?_, rfl⟩
  · rw [pollMacos]
    exact pollLoop_ok_zero _ sf sf _ rest rfl
  · rw [pollMacos]
    exact pollLoop_ok_zero _ (send_file f s) (send_file f s) _ [] rfl

/-- C2: one poll iteration implements exactly the crate's transition
algorithm, for any adapter `step` (each platform's `raw_send_file`
instantiates it): an `Ok(0)` result breaks with `Ready(Ok(()))`; an
`Ok(n)` with `n > 0` continues the loop within the same poll from the
adapter's post-state; `WouldBlock` breaks with `Pending`; `Interrupted`
continues the loop; any other error breaks with `Ready(Err(e))` carrying
the adapter's error verbatim — the driver never reinterprets it. -/
theorem C2_poll_transition {F S C : Type}
    (step : SendFile F S → C → SendFile F S × Except ErrorKind Nat)
    (sf : SendFile F S) (c : C) (rest : List C) :
    (∀ sf' : SendFile F S, step sf c = (sf', Except.ok 0) →
      pollLoop step sf (c :: rest) = (sf', some PollOut.readyOk, rest))
    ∧ (∀ (sf' : SendFile F S) (n : Nat), step sf c = (sf', Except.ok (n + 1)) →
      pollLoop step sf (c :: rest) = pollLoop step sf' rest)
    ∧ (∀ sf' : SendFile F S, step sf c = (sf', Except.error ErrorKind.wouldBlock) →
      pollLoop step sf (c :: rest) = (sf', some PollOut.pending, rest))
    ∧ (∀ sf' : SendFile F S, step sf c = (sf', Except.error ErrorKind.interrupted) →
      pollLoop step sf (c :: rest) = pollLoop step sf' rest)
    ∧ (∀ (sf' : SendFile F S) (k : Nat), step sf c = (sf', Except.error (ErrorKind.other k)) →
      pollLoop step sf (c :: rest)
        = (sf', some (PollOut.readyErr (ErrorKind.other k)), rest)) := by
  refine ⟨?_, ?_, ?_, ?_, ?_⟩
  · intro sf' h
    exact pollLoop_ok_zero step sf sf' c rest h
  · intro sf' n h
    exact pollLoop_ok_pos step sf sf' c rest n h
  · intro sf' h
    exact pollLoop_wouldBlock step sf sf' c rest h
  · intro sf' h
    exact pollLoop_interrupted step sf sf' c rest h
  · intro sf' k h
    exact pollLoop_fatal step sf sf' c rest k h

/-- Witness for C2: concrete macOS runs exercising all five transitions
(completion; positive advance then completion; would-block; interrupted
then completion; fatal error passed through verbatim). -/
theorem C2_poll_transition_witness :
    pollMacos (send_file (0 : Nat) (0 : Nat)) [MacCall.mk 0 none]
      = (send_file 0 0, some PollOut.readyOk, [])
    ∧ pollMacos (send_file (0 : Nat) (0 : Nat)) [MacCall.mk 2 none, MacCall.mk 0 none]
      = ({ file := 0, socket := 0, written := 2 }, some PollOut.readyOk, [])
    ∧ pollMacos (send_file (0 : Nat) (0 : Nat)) [MacCall.mk 0 (some ErrorKind.wouldBlock)]
      = (send_file 0 0, some PollOut.pending, [])
    ∧ pollMacos (send_file (0 : Nat) (0 : Nat))
        [MacCall.mk 0 (some ErrorKind.interrupted), MacCall.mk 0 none]
      = (send_file 0 0, some PollOut.readyOk, [])
    ∧ pollMacos (send_file (0 : Nat) (0 : Nat)) [MacCall.mk 0 (some (ErrorKind.other 32))]
      = (send_file 0 0, some (PollOut.readyErr (ErrorKind.other 32)), []) := by
  refine ⟨?_, ?_, ?_, ?_, ?_⟩
  · exact (C2_poll_transition rawSendFileMacos (send_file 0 0)
      (MacCall.mk 0 none) []).1 (send_file 0 0) rfl
  · have h1 := (C2_poll_transition rawSendFileMacos (send_file (0 : Nat) (0 : Nat))
      (MacCall.mk 2 none) [MacCall.mk 0 none]).2.1
      { file := 0, socket := 0, written := 2 } 1 rfl
    have h2 := (C2_poll_transition rawSendFileMacos
      ({ file := 0, socket := 0, written := 2 } : SendFile Nat Nat)
      (MacCall.mk 0 none) []).1 { file := 0, socket := 0, written := 2 } rfl
    exact h1.trans h2
  · exact (C2_poll_transition rawSendFileMacos (send_file 0 0)
      (MacCall.mk 0 (some ErrorKind.wouldBlock)) []).2.2.1 (send_file 0 0) rfl
  · have h1 := (C2_poll_transition rawSendFileMacos (send_file (0 : Nat) (0 : Nat))
      (MacCall.mk 0 (some ErrorKind.interrupted)) [MacCall.mk 0 none]).2.2.2.1
      (send_file 0 0) rfl
    have h2 := (C2_poll_transition rawSendFileMacos (send_file (0 : Nat) (0 : Nat))
      (MacCall.mk 0 none) []).1 (send_file 0 0) rfl
    exact h1.trans h2
  · exact (C2_poll_transition rawSendFileMacos (send_file 0 0)
      (MacCall.mk 0 (some (ErrorKind.other 32))) []).2.2.2.2 (send_file 0 0) 32 rfl

/-- C3 (counterexample): the consuming accessor `into_inner` does not
report the number of bytes transferred: two operations with the same
file and socket but different `written` counts (3 and 7) produce the
very same `into_inner` result, so that result cannot carry the count. -/
theorem C3_counterexample :
    SendFile.into_inner { file := (0 : Nat), socket := (0 : Nat), written := 3 }
      = SendFile.into_inner { file := (0 : Nat), socket := (0 : Nat), written := 7 }
    ∧ SendFile.written { file := (0 : Nat), socket := (0 : Nat), written := 3 }
      ≠ SendFile.written { file := (0 : Nat), socket := (0 : Nat), written := 7 } := by
  decide

/-- C3 (amended): the caller may at any point, complete or not, reclaim
source and destination via the consuming `into_inner`, which returns
exactly `(file, socket)`; the bytes transferred so far are reported by
the separate non-consuming `written()` accessor (callable before
consuming), not by `into_inner` itself. -/
theorem C3_into_inner_reclaim {F S : Type} (f : F) (s : S) (w : Nat) :
    SendFile.into_inner { file := f, socket := s, written := w } = (f, s)
    ∧ SendFile.written { file := f, socket := s, written := w } = w :=
  ⟨rfl, rfl⟩

/-- C4: on the two platform families with a value-result length
parameter (macOS) or a separate out-parameter (FreeBSD), one adapter
invocation adds the written-back byte count to `written`
unconditionally: the post-state satisfies
`written' = written + written_back_count` whatever the call's
success/failure result (the `err` component is universally
quantified, covering success, `WouldBlock` and every other error). -/
theorem C4_value_result_accounting {F S : Type} (sf : SendFile F S)
    (mc : MacCall) (bc : BsdCall) :
    ((rawSendFileMacos sf mc).1).written = sf.written + mc.length
    ∧ ((rawSendFileFreebsd sf bc).1).written = sf.written + bc.bytes_sent := by
  constructor
  · rcases mc with ⟨L, e⟩
    cases e
    · rfl
    · rfl
  · rcases bc with ⟨B, e⟩
    cases e
    · rfl
    · rfl

/-- C5 (counterexample): a poll that returns `Pending` can change
`transferred` across the adapter call that produced the `WouldBlock`
classification: on macOS the native call can move bytes and still fail
with `EAGAIN`, and the written-back count is accounted.  Here the call
writes back 3 bytes with `WouldBlock`: the poll returns `Pending` and
`written` goes from 0 to 3. -/
theorem C5_counterexample :
    pollMacos (send_file (0 : Nat) (0 : Nat)) [MacCall.mk 3 (some ErrorKind.wouldBlock)]
      = ({ file := 0, socket := 0, written := 3 }, some PollOut.pending, [])
    ∧ (send_file (0 : Nat) (0 : Nat)).written = 0
    ∧ ((pollMacos (send_file (0 : Nat) (0 : Nat))
        [MacCall.mk 3 (some ErrorKind.wouldBlock)]).1).written = 3 := by
  decide

/-- C5 (amended): `Pending` loses no bytes: across the adapter call that
produces `WouldBlock`, `written` changes by exactly the byte count the
native call wrote back (which can be non-zero on macOS), so every moved
byte is accounted and the next call resumes at the updated cursor; and a
destination that is never writable (every native call writes back 0
bytes and classifies as `WouldBlock`) yields `Pending` on every poll of
a sequence with the state — hence `transferred = 0` — unchanged
throughout. -/
theorem C5_pending_accounting {F S : Type} (f : F) (s : S) (sf : SendFile F S)
    (L : Nat) (rest : List MacCall) (ts : List (List MacCall))
    (h : ∀ t ∈ ts, t.head? = some (MacCall.mk 0 (some ErrorKind.wouldBlock))) :
    pollMacos sf (MacCall.mk L (some ErrorKind.wouldBlock) :: rest)
      = ({ sf with written := sf.written + L }, some PollOut.pending, rest)
    ∧ pollSeq (send_file f s) ts = (send_file f s, ts.map fun _ => some PollOut.pending)
    ∧ (send_file f s).written = 0 := by
  refine ⟨?_, pollSeq_never_writable ts (send_file f s) h, rfl⟩
  rw [pollMacos]
  exact pollLoop_wouldBlock _ sf _ _ rest rfl

/-- Witness for C5 (amended): a concrete never-writable run of two polls,
each returning `Pending` with the operation still at `written = 0`. -/
theorem C5_pending_accounting_witness :
    pollMacos (send_file (0 : Nat) (0 : Nat)) [MacCall.mk 0 (some ErrorKind.wouldBlock)]
      = (send_file 0 0, some PollOut.pending, [])
    ∧ pollSeq (send_file (0 : Nat) (0 : Nat))
        [[MacCall.mk 0 (some ErrorKind.wouldBlock)],
         [MacCall.mk 0 (some ErrorKind.wouldBlock)]]
      = (send_file 0 0, [some PollOut.pending, some PollOut.pending]) := by
  have h := C5_pending_accounting (0 : Nat) (0 : Nat) (send_file (0 : Nat) (0 : Nat)) 0 []
    [[MacCall.mk 0 (some ErrorKind.wouldBlock)],
     [MacCall.mk 0 (some ErrorKind.wouldBlock)]]
    (by decide)
  exact ⟨h.1, h.2.1⟩

/-- C6: `written` is an unsigned (ℕ) byte count, initialized to 0 by
`send_file`, and monotonically non-decreasing: no adapter invocation on
any platform branch, no poll invocation on any platform, and no
sequence of poll invocations ever decreases it. -/
theorem C6_written_monotone {F S : Type} (f : F) (s : S) :
    (send_file f s).written = 0
    ∧ (∀ (sf : SendFile F S) (c : MacCall),
        sf.written ≤ ((rawSendFileMacos sf c).1).written)
    ∧ (∀ (sf : SendFile F S) (c : LinCall),
        sf.written ≤ ((rawSendFileLinux sf c).1).written)
    ∧ (∀ (sf : SendFile F S) (c : BsdCall),
        sf.written ≤ ((rawSendFileFreebsd sf c).1).written)
    ∧ (∀ (sf : SendFile F S) (t : List MacCall),
        sf.written ≤ ((pollMacos sf t).1).written)
    ∧ (∀ (sf : SendFile F S) (t : List LinCall),
        sf.written ≤ ((pollLinux sf t).1).written)
    ∧ (∀ (sf : SendFile F S) (t : List BsdCall),
        sf.written ≤ ((pollFreebsd sf t).1).written)
    ∧ (∀ (sf : SendFile F S) (ts : List (List MacCall)),
        sf.written ≤ ((pollSeq sf ts).1).written) := by
  refine ⟨rfl, fun u c => rawSendFileMacos_mono u c, fun u c => rawSendFileLinux_mono u c,
    fun u c => rawSendFileFreebsd_mono u c, ?_, ?_, ?_,
    fun u ts => pollSeq_written_mono ts u⟩
  · intro u t
    rw [pollMacos]
    exact pollLoop_written_mono rawSendFileMacos (fun v c => rawSendFileMacos_mono v c) t u
  · intro u t
    rw [pollLinux]
    exact pollLoop_written_mono rawSendFileLinux (fun v c => rawSendFileLinux_mono v c) t u
  · intro u t
    rw [pollFreebsd]
    exact pollLoop_written_mono rawSendFileFreebsd (fun v c => rawSendFileFreebsd_mono v c) t u

/-- C7: chunking transparency on Linux/Android, where the adapter
requests at most `0x7ffff000` bytes per native call.  (i) An
`Advanced(n)` outcome with `n > 0` keeps the loop running within the
same poll invocation, from the advanced cursor.  (ii) For any trace
whose successful outcomes respect the per-call ceiling, finishing a poll
at `written = 0x7ffff000 + 1` from 0 requires at least two successful
positive `Advanced` outcomes.  (iii) A source of ceiling-plus-one bytes
on an always-writable destination completes in one poll with a single
unified total `0x7ffff000 + 1`, via exactly two positive advances. -/
theorem C7_chunking {F S : Type} (f : F) (s : S) (sf sf0 : SendFile F S)
    (n : Nat) (rest t : List LinCall) :
    pollLinux sf (Except.ok (n + 1) :: rest)
      = pollLinux { sf with written := sf.written + (n + 1) } rest
    ∧ ((∀ m : Nat, Except.ok m ∈ t → m ≤ linuxCount) → sf0.written = 0 →
        ((pollLinux sf0 t).1).written = linuxCount + 1 → 2 ≤ advCount t)
    ∧ (pollLinux (send_file f s) [Except.ok linuxCount, Except.ok 1, Except.ok 0]
        = ({ file := f, socket := s, written := linuxCount + 1 }, some PollOut.readyOk, [])
      ∧ advCount [Except.ok linuxCount, Except.ok 1, Except.ok 0] = 2) := by
  refine ⟨?_, ?_, ?_, ?_⟩
  · rw [pollLinux, pollLinux]
    exact pollLoop_ok_pos rawSendFileLinux sf _ _ rest n rfl
  · intro hcap h0 hw
    have hb := pollLinux_written_le t sf0 hcap
    rw [hw, h0] at hb
    by_contra hlt
    push_neg at hlt
    have h1 : advCount t ≤ 1 := by omega
    have h2 : advCount t * linuxCount ≤ 1 * linuxCount :=
      Nat.mul_le_mul_right _ h1
    rw [one_mul] at h2
    omega
  · have s1 : rawSendFileLinux (send_file f s) (Except.ok linuxCount)
        = ({ file := f, socket := s, written := 0 + linuxCount },
            Except.ok (0x7fffefff + 1)) := rfl
    have s2 : rawSendFileLinux ({ file := f, socket := s, written := 0 + linuxCount })
        (Except.ok 1)
        = ({ file := f, socket := s, written := 0 + linuxCount + 1 },
            Except.ok (0 + 1)) := rfl
    have s3 : rawSendFileLinux ({ file := f, socket := s, written := 0 + linuxCount + 1 })
        (Except.ok 0)
        = ({ file := f, socket := s, written := 0 + linuxCount + 1 + 0 },
            Except.ok 0) := rfl
    rw [pollLinux]
    rw [pollLoop_ok_pos rawSendFileLinux (send_file f s) _ _ _ 0x7fffefff s1]
    rw [pollLoop_ok_pos rawSendFileLinux _ _ _ _ 0 s2]
    rw [pollLoop_ok_zero rawSendFileLinux _ _ _ _ s3]
    norm_num
  · decide

/-- Witness for C7: the concrete ceiling-plus-one run — the canonical
always-writable trace respects the per-call ceiling, finishes at
`written = 0x7ffff000 + 1`, and indeed contains two positive advances. -/
theorem C7_chunking_witness :
    2 ≤ advCount [Except.ok linuxCount, Except.ok 1, Except.ok 0]
    ∧ pollLinux (send_file (0 : Nat) (0 : Nat))
        [Except.ok linuxCount, Except.ok 1, Except.ok 0]
      = ({ file := 0, socket := 0, written := linuxCount + 1 }, some PollOut.readyOk, []) := by
  have h := C7_chunking (0 : Nat) (0 : Nat) (send_file (0 : Nat) (0 : Nat))
    (send_file (0 : Nat) (0 : Nat)) 0 []
    [Except.ok linuxCount, Except.ok 1, Except.ok 0]
  refine ⟨h.2.1 ?_ rfl ?_, h.2.2.1⟩
  · intro m hm
    simp only [List.mem_cons, List.not_mem_nil, or_false, Except.ok.injEq] at hm
    rcases hm with h1 | h1 | h1
    · exact le_of_eq h1
    · rw [h1, linuxCount]; norm_num
    · rw [h1]; exact Nat.zero_le _
  · rw [h.2.2.1]

/-- C8: the adapter never retries: over any run of the driver loop, on
every platform branch, the number of adapter invocations equals the
number of native-call outcomes consumed from the trace — exactly one
native `sendfile` call per `raw_send_file` invocation, whatever each
call's outcome (the trace, hence every outcome, is universally
quantified). -/
theorem C8_one_native_call {F S : Type} (sf : SendFile F S)
    (tm : List MacCall) (tl : List LinCall) (tb : List BsdCall) :
    ((pollMacos sf tm).2.2).length + pollLoopCount rawSendFileMacos sf tm = tm.length
    ∧ ((pollLinux sf tl).2.2).length + pollLoopCount rawSendFileLinux sf tl = tl.length
    ∧ ((pollFreebsd sf tb).2.2).length + pollLoopCount rawSendFileFreebsd sf tb = tb.length :=
  ⟨pollLoop_one_call_each rawSendFileMacos tm sf,
   pollLoop_one_call_each rawSendFileLinux tl sf,
   pollLoop_one_call_each rawSendFileFreebsd tb sf⟩

/-- C9: on the Linux/Android branch a failed native call (`-1`) leaves
the operation's state untouched and returns the error — unlike the
macOS and FreeBSD branches, which add the written-back count to
`written` before inspecting the result code, also on failure. -/
theorem C9_linux_error_path {F S : Type} (sf : SendFile F S) (e : ErrorKind)
    (L B : Nat) :
    rawSendFileLinux sf (Except.error e) = (sf, Except.error e)
    ∧ ((rawSendFileMacos sf (MacCall.mk L (some e))).1).written = sf.written + L
    ∧ ((rawSendFileFreebsd sf (BsdCall.mk B (some e))).1).written = sf.written + B :=
  ⟨rfl, rfl, rfl⟩

/-- C10: round-trip of construction and reclamation: for every file `f`
and socket `s`, `into_inner (send_file f s) = (f, s)` exactly; the
`written` count an operation holds is discarded by `into_inner` (its
result is the same whatever the count), while `written()` reports it;
and both are defined here, as in the crate, for arbitrary types `F`,
`S` with no `AsRawFd` bound (the theorem assumes none). -/
theorem C10_round_trip {F S : Type} (f : F) (s : S) (w w' : Nat) :
    (send_file f s).into_inner = (f, s)
    ∧ SendFile.into_inner { file := f, socket := s, written := w }
      = SendFile.into_inner { file := f, socket := s, written := w' }
    ∧ SendFile.written { file := f, socket := s, written := w } = w
    ∧ (send_file f s).written = 0 :=
  ⟨rfl, rfl, rfl, rfl⟩

end Sendfile
